import Mathlib

/-!
Verification of the ETL data-transformation module
(`src/scripts/etl/dataTransformers.ts`) of the family-meal-planning
repository.

The TypeScript module is shallowly embedded here:

* JavaScript strings are `List Char` (`Str`); `String.prototype.trim`,
  `toLowerCase`, `includes`, `replace` and `split` are modelled
  character-wise.
* JavaScript numbers that can arise from the parsing code are modelled by
  `JSNum`: either `NaN`, an infinity, or an exact rational.  (The code only
  ever produces numbers via `parseFloat`/`parseInt` on digit / word tokens
  and via `/` and `+` on such values, so exact rationals are faithful; the
  exponent notation of `parseFloat`, which no quantity token can contain,
  is not modelled.)
* Each regular expression of the module is replaced by an explicit
  matching function with the same first-match semantics (ordered
  alternation, greedy repetition over the token classes involved,
  JavaScript word boundaries, `.` excluding line terminators).
* `undefined`/`null`/falsy coercions (`quantity || undefined`,
  `!prepTime && !cookTime`, …) are modelled explicitly on `Option`.
-/

/-! ## Characters and JavaScript string primitives -/

/-- Character lists standing for JavaScript strings. -/
abbrev Str := List Char

/-- ASCII lower-casing, the effect of `String.prototype.toLowerCase` on the
character material appearing in this module. -/
def lowerChar (c : Char) : Char :=
  if 65 ≤ c.toNat ∧ c.toNat ≤ 90 then Char.ofNat (c.toNat + 32) else c

/-- JavaScript `\s` (and the `trim` character class): whitespace and line
terminators. -/
def jsIsSpace (c : Char) : Bool :=
  let n := c.toNat
  n = 32 ∨ n = 9 ∨ n = 10 ∨ n = 11 ∨ n = 12 ∨ n = 13 ∨ n = 160 ∨ n = 5760 ∨
    (8192 ≤ n ∧ n ≤ 8202) ∨ n = 8232 ∨ n = 8233 ∨ n = 8239 ∨ n = 8287 ∨
    n = 12288 ∨ n = 65279

/-- JavaScript `\d`. -/
def isDigitB (c : Char) : Bool :=
  48 ≤ c.toNat ∧ c.toNat ≤ 57

/-- JavaScript `\w`, the word characters used by the `\b` assertion. -/
def isWordCharB (c : Char) : Bool :=
  let n := c.toNat
  (48 ≤ n ∧ n ≤ 57) ∨ (65 ≤ n ∧ n ≤ 90) ∨ (97 ≤ n ∧ n ≤ 122) ∨ n = 95

/-- Line terminators, which `.` does not match in JavaScript regexes. -/
def isLineTerm (c : Char) : Bool :=
  let n := c.toNat
  n = 10 ∨ n = 13 ∨ n = 8232 ∨ n = 8233

/-- Model of `String.prototype.trim`. -/
def jsTrim (l : Str) : Str :=
  ((l.dropWhile jsIsSpace).reverse.dropWhile jsIsSpace).reverse

/-- Model of `String.prototype.toLowerCase`. -/
def jsToLower (l : Str) : Str := l.map lowerChar

/-- Model of `String.prototype.includes` for a needle known to be a string:
`containsSub needle hay` holds when `needle` occurs contiguously in `hay`. -/
def containsSub (needle hay : Str) : Bool :=
  hay.tails.any (fun t => needle.isPrefixOf t)

/-- Case-insensitive prefix test, the way an `i`-flagged regex compares a
literal alternative against the input. -/
def ciIsPrefix (p l : Str) : Bool :=
  (p.map lowerChar).isPrefixOf (l.map lowerChar)

/-- Model of `String.prototype.replace` with a plain-string pattern: replace
the first (case-sensitive) occurrence with the empty string. -/
def replaceFirst (hay needle : Str) : Str :=
  match hay with
  | [] => []
  | c :: rest =>
    if needle.isPrefixOf hay then hay.drop needle.length
    else c :: replaceFirst rest needle

/-! ## JavaScript numbers

Finite values are exact rationals, represented by a numerator/denominator
pair kept in lowest terms with positive denominator, so that syntactic
equality of representatives coincides with numeric equality.  (`Rat` of the
library is avoided only because its arithmetic does not reduce inside the
kernel; `QV` carries the same values.) -/

/-- An exact rational: integer numerator and positive denominator, in lowest
terms whenever built through `qmk`. -/
structure QV where
  num : Int
  den : Nat
deriving DecidableEq, Repr

/-- Build a rational in lowest terms from a numerator and a positive
denominator. -/
def qmk (n : Int) (d : Nat) : QV :=
  let g := Nat.gcd n.natAbs d
  if g = 0 then ⟨n, d⟩ else ⟨n / (g : Int), d / g⟩

/-- Build a rational from an integer numerator and a nonzero integer
denominator, moving the sign to the numerator. -/
def qmkInt (n d : Int) : QV :=
  if d < 0 then qmk (-n) (-d).toNat else qmk n d.toNat

/-- Embed a natural number. -/
def qOfNat (n : Nat) : QV := ⟨(n : Int), 1⟩

/-- The JavaScript number values reachable in this module: `NaN`, the two
infinities (from division by zero), or an exact rational. -/
inductive JSNum where
  | nan : JSNum
  | inf : JSNum
  | neginf : JSNum
  | val : QV → JSNum
deriving DecidableEq, Repr

/-- JavaScript truthiness of a number (`NaN` and `0` are falsy). -/
def jsTruthy : JSNum → Bool
  | JSNum.nan => false
  | JSNum.inf => true
  | JSNum.neginf => true
  | JSNum.val q => q.num ≠ 0

/-- JavaScript division on the reachable number values. -/
def jsDiv : JSNum → JSNum → JSNum
  | JSNum.nan, _ => JSNum.nan
  | _, JSNum.nan => JSNum.nan
  | JSNum.inf, JSNum.inf => JSNum.nan
  | JSNum.inf, JSNum.neginf => JSNum.nan
  | JSNum.neginf, JSNum.inf => JSNum.nan
  | JSNum.neginf, JSNum.neginf => JSNum.nan
  | JSNum.inf, JSNum.val _ => JSNum.inf
  | JSNum.neginf, JSNum.val _ => JSNum.neginf
  | JSNum.val _, JSNum.inf => JSNum.val (qOfNat 0)
  | JSNum.val _, JSNum.neginf => JSNum.val (qOfNat 0)
  | JSNum.val a, JSNum.val b =>
    if b.num = 0 then
      if a.num = 0 then JSNum.nan
      else if 0 < a.num then JSNum.inf else JSNum.neginf
    else JSNum.val (qmkInt (a.num * (b.den : Int)) (b.num * (a.den : Int)))

/-- JavaScript addition on the reachable number values. -/
def jsAdd : JSNum → JSNum → JSNum
  | JSNum.nan, _ => JSNum.nan
  | _, JSNum.nan => JSNum.nan
  | JSNum.inf, JSNum.neginf => JSNum.nan
  | JSNum.neginf, JSNum.inf => JSNum.nan
  | JSNum.inf, _ => JSNum.inf
  | _, JSNum.inf => JSNum.inf
  | JSNum.neginf, _ => JSNum.neginf
  | _, JSNum.neginf => JSNum.neginf
  | JSNum.val a, JSNum.val b =>
    JSNum.val (qmk (a.num * (b.den : Int) + b.num * (a.den : Int)) (a.den * b.den))

/-- Numeric value of a digit run. -/
def natOfDigits (l : Str) : Nat :=
  l.foldl (fun acc c => 10 * acc + (c.toNat - 48)) 0

/-- Model of `parseInt` on the digit-run capture groups produced by the
regexes of this module. -/
def jsParseIntNat (l : Str) : Nat := natOfDigits l

/-- Model of `parseFloat` on the tokens the quantity patterns can feed it
(optional sign, digit run, optional decimal point and digit run; exponent
suffixes, which those tokens never contain, are not modelled). -/
def jsParseFloat (l0 : Str) : JSNum :=
  let l1 := l0.dropWhile jsIsSpace
  let sgn : Int := if l1.head? = some '-' then -1 else 1
  let l2 := if l1.head? = some '-' ∨ l1.head? = some '+' then l1.tail else l1
  let d1 := l2.takeWhile isDigitB
  let l3 := l2.dropWhile isDigitB
  if l3.head? = some '.' then
    let d2 := l3.tail.takeWhile isDigitB
    if d1 = [] ∧ d2 = [] then JSNum.nan
    else JSNum.val (qmk (sgn * (natOfDigits d1 * 10 ^ d2.length + natOfDigits d2 : Nat)) (10 ^ d2.length))
  else
    if d1 = [] then JSNum.nan else JSNum.val (qmk (sgn * (natOfDigits d1 : Nat)) 1)

example : jsParseFloat "2 1".data = JSNum.val (qOfNat 2) := by decide
example : jsParseFloat "half".data = JSNum.nan := by decide
example : jsParseFloat "1.5".data = JSNum.val ⟨3, 2⟩ := by decide
example : jsDiv (jsParseFloat "1".data) (jsParseFloat "2".data) = JSNum.val ⟨1, 2⟩ := by decide
example : jsTrim "  ab c  ".data = "ab c".data := by decide
example : containsSub "hou".data "2 hours".data = true := by decide
example : replaceFirst "cupcake cup".data "cup".data = "cake cup".data := by decide

/-! ## Ingredient classification keyword lists

Transcribed verbatim, in object-literal order, from
`IngredientParser.INGREDIENT_CLASSIFICATIONS` (duplicates included), plus
the plant-based-protein and gluten-containing lists of `RecipeAnalyzer`.
-/

def proteinMainKeywords : List String := [
  "chicken",
  "beef",
  "pork",
  "lamb",
  "turkey",
  "duck",
  "goose",
  "venison",
  "bacon",
  "ham",
  "sausage",
  "pepperoni",
  "salami",
  "prosciutto",
  "chorizo",
  "brisket",
  "ribs",
  "steak",
  "chop",
  "cutlet",
  "tenderloin",
  "roast",
  "ground beef",
  "ground pork",
  "ground turkey",
  "ground chicken",
  "mince",
  "poultry",
  "game",
  "rabbit",
  "bison",
  "elk",
  "boar"]

def proteinSourceKeywords : List String := [
  "fish",
  "salmon",
  "tuna",
  "cod",
  "halibut",
  "shrimp",
  "crab",
  "lobster",
  "scallops",
  "mussels",
  "clams",
  "oysters",
  "tofu",
  "tempeh",
  "seitan",
  "mackerel",
  "sardines",
  "anchovy",
  "anchovies",
  "trout",
  "bass",
  "snapper",
  "tilapia",
  "prawns",
  "crayfish",
  "crawfish",
  "squid",
  "octopus",
  "calamari",
  "lentils",
  "chickpeas",
  "garbanzo",
  "black beans",
  "kidney beans",
  "pinto beans",
  "navy beans",
  "lima beans",
  "edamame",
  "quinoa",
  "hemp seeds",
  "chia seeds",
  "nutritional yeast",
  "protein powder",
  "whey",
  "casein"]

def dairyKeywords : List String := [
  "milk",
  "cheese",
  "butter",
  "cream",
  "yogurt",
  "sour cream",
  "buttermilk",
  "margarine",
  "heavy cream",
  "half and half",
  "ricotta",
  "cottage cheese",
  "mozzarella",
  "cheddar",
  "parmesan",
  "feta",
  "goat cheese",
  "brie",
  "camembert",
  "gouda",
  "swiss",
  "provolone",
  "monterey jack",
  "colby",
  "pepper jack",
  "blue cheese",
  "gorgonzola",
  "roquefort",
  "stilton",
  "cream cheese",
  "mascarpone",
  "kefir",
  "greek yogurt",
  "skyr",
  "quark",
  "fromage blanc",
  "creme fraiche",
  "ice cream",
  "gelato",
  "sorbet",
  "frozen yogurt"]

def vegetableKeywords : List String := [
  "onion",
  "garlic",
  "tomato",
  "pepper",
  "carrot",
  "celery",
  "lettuce",
  "spinach",
  "broccoli",
  "cauliflower",
  "mushroom",
  "potato",
  "sweet potato",
  "corn",
  "peas",
  "beans",
  "cucumber",
  "zucchini",
  "squash",
  "eggplant",
  "bell pepper",
  "jalapeño",
  "chili pepper",
  "cabbage",
  "kale",
  "arugula",
  "asparagus",
  "artichoke",
  "avocado",
  "beet",
  "beets",
  "beetroot",
  "radish",
  "turnip",
  "rutabaga",
  "parsnip",
  "leek",
  "shallot",
  "scallion",
  "green onion",
  "spring onion",
  "chive",
  "chives",
  "herbs",
  "cilantro",
  "parsley",
  "basil",
  "oregano",
  "thyme",
  "rosemary",
  "sage",
  "mint",
  "dill",
  "tarragon",
  "fennel",
  "endive",
  "escarole",
  "radicchio",
  "watercress",
  "mizuna",
  "bok choy",
  "napa cabbage",
  "daikon",
  "jicama",
  "kohlrabi",
  "okra",
  "brussels sprouts",
  "collard greens",
  "mustard greens",
  "chard",
  "beet greens",
  "arugula",
  "rocket",
  "mesclun",
  "mache",
  "frisee",
  "iceberg",
  "romaine",
  "butter lettuce",
  "bibb lettuce",
  "red leaf",
  "green leaf",
  "spinach",
  "microgreens",
  "sprouts",
  "alfalfa",
  "mung bean sprouts",
  "broccoli sprouts"]

def grainKeywords : List String := [
  "rice",
  "pasta",
  "noodles",
  "bread",
  "flour",
  "oats",
  "quinoa",
  "barley",
  "wheat",
  "buckwheat",
  "millet",
  "couscous",
  "bulgur",
  "crackers",
  "cereal",
  "brown rice",
  "white rice",
  "wild rice",
  "jasmine rice",
  "basmati rice",
  "arborio rice",
  "sushi rice",
  "sticky rice",
  "black rice",
  "red rice",
  "spaghetti",
  "penne",
  "rigatoni",
  "fettuccine",
  "linguine",
  "macaroni",
  "lasagna",
  "ravioli",
  "tortellini",
  "gnocchi",
  "ramen",
  "soba",
  "udon",
  "rice noodles",
  "vermicelli",
  "angel hair",
  "fusilli",
  "rotini",
  "ziti",
  "breadcrumbs",
  "panko",
  "croutons",
  "tortilla",
  "pita",
  "naan",
  "bagel",
  "muffin",
  "biscuit",
  "scone",
  "croissant",
  "baguette",
  "sourdough",
  "rye bread",
  "whole wheat",
  "multigrain",
  "sprouted",
  "gluten-free bread",
  "cornmeal",
  "polenta",
  "grits",
  "semolina",
  "farro",
  "spelt",
  "kamut",
  "amaranth",
  "teff",
  "sorghum",
  "triticale",
  "rye",
  "oats",
  "steel cut oats",
  "rolled oats",
  "instant oats",
  "granola",
  "muesli"]

def fatKeywords : List String := [
  "oil",
  "olive oil",
  "vegetable oil",
  "coconut oil",
  "butter",
  "margarine",
  "lard",
  "shortening",
  "ghee",
  "avocado oil",
  "sesame oil",
  "canola oil",
  "sunflower oil",
  "safflower oil",
  "peanut oil",
  "walnut oil",
  "almond oil",
  "hazelnut oil",
  "pistachio oil",
  "macadamia oil",
  "grapeseed oil",
  "rice bran oil",
  "palm oil",
  "palm kernel oil",
  "cottonseed oil",
  "soybean oil",
  "corn oil",
  "flaxseed oil",
  "hemp oil",
  "argan oil",
  "truffle oil",
  "chili oil",
  "garlic oil",
  "herb oil",
  "infused oil",
  "bacon fat",
  "duck fat",
  "chicken fat",
  "beef tallow",
  "schmaltz"]

def spiceKeywords : List String := [
  "salt",
  "pepper",
  "garlic powder",
  "onion powder",
  "paprika",
  "cumin",
  "oregano",
  "basil",
  "thyme",
  "rosemary",
  "sage",
  "parsley",
  "cilantro",
  "dill",
  "chives",
  "bay leaves",
  "vanilla",
  "cinnamon",
  "nutmeg",
  "ginger",
  "turmeric",
  "cayenne",
  "red pepper flakes",
  "black pepper",
  "white pepper",
  "pink pepper",
  "green pepper",
  "allspice",
  "cardamom",
  "cloves",
  "star anise",
  "fennel seeds",
  "caraway seeds",
  "mustard seeds",
  "poppy seeds",
  "sesame seeds",
  "sunflower seeds",
  "pumpkin seeds",
  "chia seeds",
  "flax seeds",
  "hemp seeds",
  "coriander",
  "cilantro seeds",
  "dill seeds",
  "anise",
  "licorice",
  "tarragon",
  "marjoram",
  "savory",
  "sumac",
  "za\x27atar",
  "herbes de provence",
  "italian seasoning",
  "poultry seasoning",
  "pumpkin pie spice",
  "apple pie spice",
  "chai spice",
  "five spice",
  "seven spice",
  "berbere",
  "harissa",
  "ras el hanout",
  "jerk seasoning",
  "cajun seasoning",
  "old bay",
  "taco seasoning",
  "chili powder",
  "smoked paprika",
  "sweet paprika",
  "hot paprika",
  "chipotle",
  "jalapeño powder",
  "habanero powder",
  "ghost pepper",
  "scotch bonnet",
  "piri piri",
  "sriracha",
  "sambal oelek",
  "gochujang",
  "miso",
  "tamari",
  "soy sauce",
  "worcestershire",
  "fish sauce",
  "oyster sauce",
  "hoisin sauce",
  "teriyaki sauce",
  "ponzu",
  "mirin",
  "sake",
  "rice vinegar",
  "balsamic vinegar",
  "apple cider vinegar",
  "white vinegar",
  "red wine vinegar",
  "sherry vinegar",
  "champagne vinegar",
  "lemon juice",
  "lime juice",
  "orange juice",
  "grapefruit juice",
  "pomegranate juice",
  "tamarind",
  "date syrup",
  "maple syrup",
  "honey",
  "agave",
  "molasses",
  "brown sugar",
  "white sugar",
  "powdered sugar",
  "coconut sugar",
  "turbinado",
  "demerara",
  "muscovado",
  "jaggery",
  "palm sugar",
  "stevia",
  "monk fruit",
  "xylitol",
  "erythritol",
  "sorbitol",
  "maltitol",
  "saccharin",
  "aspartame"]

def fruitKeywords : List String := [
  "apple",
  "banana",
  "orange",
  "lemon",
  "lime",
  "grapefruit",
  "strawberry",
  "blueberry",
  "raspberry",
  "blackberry",
  "cranberry",
  "cherry",
  "grape",
  "peach",
  "pear",
  "plum",
  "apricot",
  "nectarine",
  "pineapple",
  "mango",
  "papaya",
  "kiwi",
  "passion fruit",
  "dragon fruit",
  "pomegranate",
  "fig",
  "date",
  "raisin",
  "prune",
  "coconut",
  "avocado",
  "tomato",
  "cucumber",
  "watermelon",
  "cantaloupe",
  "honeydew",
  "persimmon",
  "guava",
  "lychee",
  "rambutan",
  "durian",
  "jackfruit",
  "breadfruit",
  "plantain",
  "banana",
  "dried fruit",
  "fruit leather",
  "jam",
  "jelly",
  "marmalade",
  "preserves",
  "compote",
  "chutney",
  "relish",
  "pickled fruit",
  "candied fruit"]

def nutsSeedsKeywords : List String := [
  "almond",
  "walnut",
  "pecan",
  "hazelnut",
  "pistachio",
  "cashew",
  "macadamia",
  "brazil nut",
  "pine nut",
  "peanut",
  "sunflower seed",
  "pumpkin seed",
  "sesame seed",
  "chia seed",
  "flax seed",
  "hemp seed",
  "poppy seed",
  "caraway seed",
  "fennel seed",
  "mustard seed",
  "coriander seed",
  "nut butter",
  "peanut butter",
  "almond butter",
  "cashew butter",
  "sunflower butter",
  "tahini",
  "halva",
  "nut milk",
  "almond milk",
  "coconut milk",
  "oat milk",
  "soy milk",
  "rice milk",
  "hemp milk"]

def condimentsKeywords : List String := [
  "ketchup",
  "mustard",
  "mayonnaise",
  "ranch",
  "blue cheese dressing",
  "caesar dressing",
  "italian dressing",
  "vinaigrette",
  "balsamic glaze",
  "hot sauce",
  "tabasco",
  "sriracha",
  "chili sauce",
  "barbecue sauce",
  "teriyaki sauce",
  "soy sauce",
  "worcestershire sauce",
  "fish sauce",
  "oyster sauce",
  "hoisin sauce",
  "sweet and sour sauce",
  "duck sauce",
  "plum sauce",
  "tartar sauce",
  "cocktail sauce",
  "horseradish sauce",
  "aioli",
  "pesto",
  "chimichurri",
  "salsa",
  "guacamole",
  "hummus",
  "tzatziki",
  "tahini",
  "miso paste",
  "wasabi",
  "pickled ginger",
  "capers",
  "olives",
  "pickles",
  "relish",
  "chutney",
  "preserves"]

def plantBasedProteins : List String := [
  "tofu",
  "tempeh",
  "seitan",
  "lentils",
  "chickpeas",
  "garbanzo",
  "black beans",
  "kidney beans",
  "pinto beans",
  "navy beans",
  "lima beans",
  "edamame",
  "quinoa",
  "hemp seeds",
  "chia seeds",
  "nutritional yeast",
  "protein powder",
  "whey",
  "casein"]

def glutenContaining : List String := [
  "flour",
  "bread",
  "pasta",
  "wheat",
  "barley",
  "rye",
  "spaghetti",
  "penne",
  "rigatoni",
  "fettuccine",
  "linguine",
  "macaroni",
  "lasagna",
  "ravioli",
  "tortellini",
  "gnocchi",
  "ramen",
  "soba",
  "udon",
  "rice noodles",
  "vermicelli",
  "angel hair",
  "fusilli",
  "rotini",
  "ziti",
  "breadcrumbs",
  "panko",
  "croutons",
  "tortilla",
  "pita",
  "naan",
  "bagel",
  "muffin",
  "biscuit",
  "scone",
  "croissant",
  "baguette",
  "sourdough",
  "rye bread",
  "whole wheat",
  "multigrain",
  "sprouted",
  "gluten-free bread",
  "cornmeal",
  "polenta",
  "grits",
  "semolina",
  "farro",
  "spelt",
  "kamut",
  "amaranth",
  "teff",
  "sorghum",
  "triticale",
  "rye",
  "oats",
  "steel cut oats",
  "rolled oats",
  "instant oats",
  "granola",
  "muesli"]

/-! ## IngredientParser: quantity patterns

One matcher per entry of `IngredientParser.QUANTITY_PATTERNS`, in source
order.  Each pattern is anchored (`^ ... $`); a matcher returns the first
capture group and the trailing `(.+)` group.  The `(.+)$` tail requires a
nonempty remainder free of line terminators (which `.` cannot cross), and
`\s+` is the maximal whitespace run (no viable backtracking exists for
these patterns, as every reduced run would place a non-matching character
next). -/

/-- The tail `(.+)$` of an anchored pattern accepts `rest`. -/
def dotPlusOk (rest : Str) : Bool :=
  !rest.isEmpty && rest.all (fun c => !isLineTerm c)

/-- Matcher for `^(\d+\/\d+)\s+(.+)$`. -/
def matchFracQ (t : Str) : Option (Str × Str) :=
  let d1 := t.takeWhile isDigitB
  match t.dropWhile isDigitB with
  | '/' :: r2 =>
    let d2 := r2.takeWhile isDigitB
    let r3 := r2.dropWhile isDigitB
    let ws := r3.takeWhile jsIsSpace
    let rest := r3.dropWhile jsIsSpace
    if !d1.isEmpty && !d2.isEmpty && !ws.isEmpty && dotPlusOk rest then
      some (d1 ++ '/' :: d2, rest)
    else none
  | _ => none

/-- Matcher for `^(\d+\s+\d+\/\d+)\s+(.+)$`. -/
def matchMixedQ (t : Str) : Option (Str × Str) :=
  let d1 := t.takeWhile isDigitB
  let r1 := t.dropWhile isDigitB
  let w1 := r1.takeWhile jsIsSpace
  let r2 := r1.dropWhile jsIsSpace
  let d2 := r2.takeWhile isDigitB
  match r2.dropWhile isDigitB with
  | '/' :: r4 =>
    let d3 := r4.takeWhile isDigitB
    let r5 := r4.dropWhile isDigitB
    let w2 := r5.takeWhile jsIsSpace
    let rest := r5.dropWhile jsIsSpace
    if !d1.isEmpty && !w1.isEmpty && !d2.isEmpty && !d3.isEmpty && !w2.isEmpty
        && dotPlusOk rest then
      some (d1 ++ w1 ++ d2 ++ '/' :: d3, rest)
    else none
  | _ => none

/-- Matcher for `^(\d+\.\d+)\s+(.+)$`. -/
def matchDecQ (t : Str) : Option (Str × Str) :=
  let d1 := t.takeWhile isDigitB
  match t.dropWhile isDigitB with
  | '.' :: r2 =>
    let d2 := r2.takeWhile isDigitB
    let r3 := r2.dropWhile isDigitB
    let ws := r3.takeWhile jsIsSpace
    let rest := r3.dropWhile jsIsSpace
    if !d1.isEmpty && !d2.isEmpty && !ws.isEmpty && dotPlusOk rest then
      some (d1 ++ '.' :: d2, rest)
    else none
  | _ => none

/-- Matcher for `^(\d+)\s+(.+)$`. -/
def matchIntQ (t : Str) : Option (Str × Str) :=
  let d1 := t.takeWhile isDigitB
  let r1 := t.dropWhile isDigitB
  let ws := r1.takeWhile jsIsSpace
  let rest := r1.dropWhile jsIsSpace
  if !d1.isEmpty && !ws.isEmpty && dotPlusOk rest then some (d1, rest) else none

/-- The spelled-out quantity words, in alternation order, of
`^(one|two|three|four|five|six|seven|eight|nine|ten|half|quarter|third)\s+(.+)$/i`. -/
def wordAlts : List String :=
  ["one", "two", "three", "four", "five", "six", "seven", "eight", "nine",
   "ten", "half", "quarter", "third"]

/-- Matcher for the spelled-out-word pattern: ordered case-insensitive
alternation at the head of the string (no two alternatives are prefixes of
one another, so ordered choice is exact). -/
def matchWordQ (t : Str) : Option (Str × Str) :=
  wordAlts.findSome? (fun word =>
    if ciIsPrefix word.data t then
      let w := t.take word.data.length
      let after := t.drop word.data.length
      let ws := after.takeWhile jsIsSpace
      let rest := after.dropWhile jsIsSpace
      if !ws.isEmpty && dotPlusOk rest then some (w, rest) else none
    else none)

/-- The quantity-pattern loop of `parseIngredient` step 1: first matching
pattern in the fixed order wins. -/
def matchQuantity (t : Str) : Option (Str × Str) :=
  (matchFracQ t) <|> (matchMixedQ t) <|> (matchDecQ t) <|> (matchIntQ t) <|>
    (matchWordQ t)

/-- The quantity computation applied to the matched group
(`quantityStr`): the fraction branch (`includes('/')`), the mixed-number
branch (`includes(' ')`, unreachable because every group with a space also
has a slash), and the `parseFloat` fallback.  `none` means the code left
`quantity` at `null` (only possible when a split does not yield exactly the
tested shape). -/
def computeQuantity (qs : Str) : Option JSNum :=
  if qs.contains '/' then
    match qs.splitOn '/' with
    | [a, b] => some (jsDiv (jsParseFloat a) (jsParseFloat b))
    | _ => none
  else if qs.contains ' ' then
    match qs.splitOn ' ' with
    | [a, b] =>
      if b.contains '/' then
        let fp := b.splitOn '/'
        some (jsAdd (jsParseFloat a)
          (jsDiv (jsParseFloat (fp.getD 0 [])) (jsParseFloat (fp.getD 1 []))))
      else none
    | _ => none
  else some (jsParseFloat qs)

/-! ## IngredientParser: unit patterns -/

/-- Word/non-word transition, the JavaScript `\b` assertion between two
(optional) characters. -/
def boundaryB (prev next : Option Char) : Bool :=
  (match prev with | some c => isWordCharB c | none => false) !=
    (match next with | some c => isWordCharB c | none => false)

/-- First match of an unanchored `\b(alt₁|alt₂|…)\b` alternation (flags
`gi`; only the first match is consumed by the code): leftmost position
first, then alternation order; returns the matched text in original case. -/
def altWbFirstAux (alts : List Str) (prev : Option Char) (s : Str) : Option Str :=
  let here :=
    if boundaryB prev s.head? then
      alts.findSome? (fun a =>
        if ciIsPrefix a s && boundaryB ((s.take a.length).getLast?) ((s.drop a.length).head?)
        then some (s.take a.length) else none)
    else none
  match here with
  | some m => some m
  | none =>
    match s with
    | [] => none
    | c :: r => altWbFirstAux alts (some c) r

/-- Entry point of `altWbFirstAux` at string start. -/
def altWbFirst (alts : List String) (s : Str) : Option Str :=
  altWbFirstAux (alts.map String.data) none s

/-- First match of the start-anchored `^(alt₁|alt₂|…)` alternation (no word
boundaries). -/
def altStartFirst (alts : List String) (s : Str) : Option Str :=
  alts.findSome? (fun a =>
    if ciIsPrefix a.data s then some (s.take a.data.length) else none)

/-- Volume alternatives of `UNIT_PATTERNS[0]`. -/
def volumeUnits : List String :=
  ["cup", "cups", "c.", "tbsp", "tablespoon", "tablespoons", "tsp",
   "teaspoon", "teaspoons", "fl oz", "fluid ounce", "pint", "pints",
   "quart", "quarts", "gallon", "gallons", "ml", "milliliter",
   "milliliters", "cl", "centiliter", "centiliters", "dl", "deciliter",
   "deciliters", "l", "liter", "liters", "litre", "litres"]

/-- Weight alternatives of `UNIT_PATTERNS[1]`. -/
def weightUnits : List String :=
  ["lb", "lbs", "pound", "pounds", "oz", "ounce", "ounces", "kg",
   "kilogram", "kilograms", "g", "gram", "grams", "mg", "milligram",
   "milligrams", "tonne", "tonnes", "stone", "stones"]

/-- Length alternatives of `UNIT_PATTERNS[2]`. -/
def lengthUnits : List String :=
  ["inch", "inches", "in", "ft", "feet", "foot", "yard", "yards", "yd",
   "mile", "miles", "mm", "millimeter", "millimeters", "cm", "centimeter",
   "centimeters", "m", "meter", "meters", "metre", "metres", "km",
   "kilometer", "kilometers"]

/-- Count alternatives of `UNIT_PATTERNS[3]`. -/
def countUnits : List String :=
  ["piece", "pieces", "slice", "slices", "clove", "cloves", "head",
   "heads", "bunch", "bunches", "can", "cans", "package", "packages",
   "bag", "bags", "box", "boxes", "bottle", "bottles", "jar", "jars",
   "tube", "tubes"]

/-- Size-descriptor alternatives of `UNIT_PATTERNS[4]`. -/
def sizeUnits : List String :=
  ["small", "medium", "large", "extra large", "xl", "jumbo", "mini",
   "tiny", "micro", "macro"]

/-- Temperature alternatives of `UNIT_PATTERNS[5]`. -/
def tempUnits : List String :=
  ["°c", "°f", "celsius", "fahrenheit", "farenheit"]

/-- Start-of-string alternatives of `UNIT_PATTERNS[6]`. -/
def startUnits : List String :=
  ["c.", "tbsp", "tsp", "fl oz", "lb", "oz", "ml", "g", "kg", "in", "ft",
   "cm", "m"]

/-- The unit-pattern loop: the first of the seven pattern families that
matches anywhere wins, and its first match is used. -/
def firstUnitMatch (rest : Str) : Option Str :=
  match [volumeUnits, weightUnits, lengthUnits, countUnits, sizeUnits,
         tempUnits].findSome? (fun fam => altWbFirst fam rest) with
  | some m => some m
  | none => altStartFirst startUnits rest

/-- Lookup in a normalization table (a JavaScript object literal with
distinct keys). -/
def lookupStr (m : List (String × String)) (k : String) : Option String :=
  (m.find? (fun p => p.1 == k)).map (fun p => p.2)

/-- The volume normalization table of `normalizeUnit`. -/
def volumeMap : List (String × String) :=
  [("c", "cup"), ("c.", "cup"), ("cups", "cup"), ("cup", "cup"),
   ("tbsp", "tablespoon"), ("tablespoon", "tablespoon"), ("tablespoons", "tablespoon"),
   ("tsp", "teaspoon"), ("teaspoon", "teaspoon"), ("teaspoons", "teaspoon"),
   ("fl oz", "fluid ounce"), ("fluid ounce", "fluid ounce"), ("fluid ounces", "fluid ounce"),
   ("pint", "pint"), ("pints", "pint"),
   ("quart", "quart"), ("quarts", "quart"),
   ("gallon", "gallon"), ("gallons", "gallon"),
   ("ml", "milliliter"), ("milliliter", "milliliter"), ("milliliters", "milliliter"),
   ("l", "liter"), ("liter", "liter"), ("liters", "liter"), ("litre", "liter"), ("litres", "liter")]

/-- The weight normalization table of `normalizeUnit`. -/
def weightMap : List (String × String) :=
  [("lb", "pound"), ("lbs", "pound"), ("pound", "pound"), ("pounds", "pound"),
   ("oz", "ounce"), ("ounce", "ounce"), ("ounces", "ounce"),
   ("kg", "kilogram"), ("kilogram", "kilogram"), ("kilograms", "kilogram"),
   ("g", "gram"), ("gram", "gram"), ("grams", "gram"),
   ("mg", "milligram"), ("milligram", "milligram"), ("milligrams", "milligram")]

/-- Model of `IngredientParser.normalizeUnit`. -/
def normalizeUnit (unit : String) : String :=
  if unit = "" then "unknown"
  else
    let lowerUnit := String.mk (jsToLower unit.data)
    match lookupStr volumeMap lowerUnit with
    | some v => v
    | none =>
      match lookupStr weightMap lowerUnit with
      | some v => v
      | none => unit

example : normalizeUnit "c." = "cup" := by decide
example : normalizeUnit "Cups" = "cup" := by decide
example : normalizeUnit "g" = "gram" := by decide
example : normalizeUnit "large" = "large" := by decide
example : firstUnitMatch "cup milk".data = some "cup".data := by decide
example : firstUnitMatch "500g ground beef".data = none := by decide
example : altStartFirst startUnits "c. firmly packed brown sugar".data = some "c.".data := by decide
example : altWbFirst volumeUnits "c. firmly packed brown sugar".data = none := by decide

/-! ## IngredientParser: classification -/

/-- The ten ingredient categories plus the `other` fallback. -/
inductive Category where
  | protein_main | protein_source | vegetable | grain | dairy | fat
  | spice | fruit | nuts_seeds | condiments | other
deriving DecidableEq, Repr

/-- `INGREDIENT_CLASSIFICATIONS` as the ordered category/keyword-list pairs
that `Object.entries` yields (object-literal insertion order). -/
def INGREDIENT_CLASSIFICATIONS : List (Category × List String) :=
  [(Category.protein_main, proteinMainKeywords),
   (Category.protein_source, proteinSourceKeywords),
   (Category.dairy, dairyKeywords),
   (Category.vegetable, vegetableKeywords),
   (Category.grain, grainKeywords),
   (Category.fat, fatKeywords),
   (Category.spice, spiceKeywords),
   (Category.fruit, fruitKeywords),
   (Category.nuts_seeds, nutsSeedsKeywords),
   (Category.condiments, condimentsKeywords)]

/-- The exact-keyword tier of `classifyIngredient`: first category (in
iteration order) with a keyword occurring as a substring of the name. -/
def exactClassification (name : Str) : Option Category :=
  INGREDIENT_CLASSIFICATIONS.findSome? (fun p =>
    if p.2.any (fun k => containsSub k.data name) then some p.1 else none)

/-- Occurrence of a keyword with a word boundary on each side, the effect
of one alternative of the `\b(…)\b` regexes that
`createPatternsFromKeywords` builds.  (The source buckets keywords by
length into up to three alternations; whether some alternative of some
bucket matches is the same as whether some keyword matches.) -/
def wbMatchAux (k : Str) (prev : Option Char) (s : Str) : Bool :=
  let here := boundaryB prev s.head? && ciIsPrefix k s &&
    boundaryB ((s.take k.length).getLast?) ((s.drop k.length).head?)
  match s with
  | [] => here
  | c :: r => here || wbMatchAux k (some c) r

/-- Whole-string entry point of `wbMatchAux`. -/
def wbMatch (k : Str) (s : Str) : Bool := wbMatchAux k none s

/-- Test of the keyword-derived `\b(…)\b` pattern set of a category. -/
def keywordWbAny (ks : List String) (s : Str) : Bool :=
  ks.any (fun k => wbMatch k.data s)

/-- General protein cues (the hand-written regexes of
`matchesProteinPatterns`, flattened: each regex tests whether some
alternative occurs as a plain substring). -/
def proteinGeneralCues : List String :=
  ["meat", "poultry", "game", "protein", "steak", "chop", "cutlet",
   "tenderloin", "roast", "brisket", "ribs", "ground", "mince"]

/-- General vegetable cues of `matchesVegetablePatterns`. -/
def vegetableGeneralCues : List String :=
  ["vegetable", "veggie", "greens", "leafy", "root", "bulb", "tuber",
   "stalk", "stem", "cruciferous", "allium", "nightshade", "sprout",
   "shoot", "bud", "flower"]

/-- General fruit cues of `matchesFruitPatterns`. -/
def fruitGeneralCues : List String :=
  ["berry", "fruit", "citrus", "tropical", "dried fruit", "jam", "jelly",
   "marmalade", "compote", "chutney", "preserve"]

/-- General grain cues of `matchesGrainPatterns`. -/
def grainGeneralCues : List String :=
  ["grain", "cereal", "starch", "carb", "bread", "pasta", "noodle",
   "rice", "flour", "meal", "bran", "germ", "cracker", "biscuit", "muffin"]

/-- General dairy cues of `matchesDairyPatterns`. -/
def dairyGeneralCues : List String :=
  ["dairy", "milk", "cream", "cheese", "yogurt", "butter", "margarine",
   "kefir", "fermented", "cultured", "probiotic"]

/-- General fat cues of `matchesFatPatterns`. -/
def fatGeneralCues : List String :=
  ["oil", "fat", "grease", "tallow", "lard", "shortening", "ghee",
   "schmaltz"]

/-- General spice cues of `matchesSpicePatterns`. -/
def spiceGeneralCues : List String :=
  ["spice", "herb", "seasoning", "flavor", "powder", "ground", "dried",
   "fresh", "extract", "essence", "aroma", "sauce", "paste", "condiment",
   "vinegar", "juice", "syrup"]

/-- General nut/seed cues of `matchesNutSeedPatterns`. -/
def nutSeedGeneralCues : List String :=
  ["nut", "seed", "kernel", "butter", "paste", "milk", "tahini", "halva"]

/-- General condiment cues of `matchesCondimentPatterns`. -/
def condimentGeneralCues : List String :=
  ["sauce", "dressing", "dip", "spread", "pickle", "relish", "chutney",
   "ketchup", "mustard", "mayo", "hot sauce", "barbecue", "teriyaki"]

/-- Model of `matchesProteinPatterns`. -/
def matchesProteinPatterns (name : Str) : Bool :=
  keywordWbAny (proteinMainKeywords ++ proteinSourceKeywords) name ||
    proteinGeneralCues.any (fun c => containsSub c.data name)

/-- Model of `matchesVegetablePatterns`. -/
def matchesVegetablePatterns (name : Str) : Bool :=
  keywordWbAny vegetableKeywords name ||
    vegetableGeneralCues.any (fun c => containsSub c.data name)

/-- Model of `matchesFruitPatterns`. -/
def matchesFruitPatterns (name : Str) : Bool :=
  keywordWbAny fruitKeywords name ||
    fruitGeneralCues.any (fun c => containsSub c.data name)

/-- Model of `matchesGrainPatterns`. -/
def matchesGrainPatterns (name : Str) : Bool :=
  keywordWbAny grainKeywords name ||
    grainGeneralCues.any (fun c => containsSub c.data name)

/-- Model of `matchesDairyPatterns`. -/
def matchesDairyPatterns (name : Str) : Bool :=
  keywordWbAny dairyKeywords name ||
    dairyGeneralCues.any (fun c => containsSub c.data name)

/-- Model of `matchesFatPatterns`. -/
def matchesFatPatterns (name : Str) : Bool :=
  keywordWbAny fatKeywords name ||
    fatGeneralCues.any (fun c => containsSub c.data name)

/-- Model of `matchesSpicePatterns`. -/
def matchesSpicePatterns (name : Str) : Bool :=
  keywordWbAny spiceKeywords name ||
    spiceGeneralCues.any (fun c => containsSub c.data name)

/-- Model of `matchesNutSeedPatterns`. -/
def matchesNutSeedPatterns (name : Str) : Bool :=
  keywordWbAny nutsSeedsKeywords name ||
    nutSeedGeneralCues.any (fun c => containsSub c.data name)

/-- Model of `matchesCondimentPatterns`. -/
def matchesCondimentPatterns (name : Str) : Bool :=
  keywordWbAny condimentsKeywords name ||
    condimentGeneralCues.any (fun c => containsSub c.data name)

/-- Model of `intelligentClassification`, the pattern-based fallback tier. -/
def intelligentClassification (ingredientName : Str) : Category :=
  if (jsTrim ingredientName).isEmpty then Category.other
  else
    let name := jsToLower ingredientName
    if matchesProteinPatterns name then Category.protein_main
    else if matchesVegetablePatterns name then Category.vegetable
    else if matchesFruitPatterns name then Category.fruit
    else if matchesGrainPatterns name then Category.grain
    else if matchesDairyPatterns name then Category.dairy
    else if matchesFatPatterns name then Category.fat
    else if matchesSpicePatterns name then Category.spice
    else if matchesNutSeedPatterns name then Category.nuts_seeds
    else if matchesCondimentPatterns name then Category.condiments
    else Category.other

/-- Model of `IngredientParser.classifyIngredient`. -/
def classifyIngredient (ingredientName : String) : Category :=
  if (jsTrim ingredientName.data).isEmpty then Category.other
  else
    let name := jsTrim (jsToLower ingredientName.data)
    match exactClassification name with
    | some c => c
    | none => intelligentClassification name

/-! ## IngredientParser: parseIngredient -/

/-- The optionality marker phrases of `isOptional`. -/
def optionalKeywords : List String :=
  ["optional", "to taste", "as needed", "if desired"]

/-- Model of `IngredientParser.isOptional`. -/
def isOptional (ingredientStr : String) : Bool :=
  optionalKeywords.any (fun k => containsSub k.data (jsToLower ingredientStr.data))

/-- An argument to `parseIngredient`: a string, or any non-string value
(`undefined`, `null`, numbers, objects — all taking the same guard path). -/
inductive JSInput where
  | str : String → JSInput
  | nonString : JSInput
deriving DecidableEq, Repr

/-- The structured result of `parseIngredient` (`RecipeIngredient`). -/
structure RecipeIngredient where
  ingredient_name : String
  quantity : Option JSNum
  unit : Option String
  kind : Category
  is_optional : Bool
  sort_order : Nat
deriving DecidableEq, Repr

/-- The fully-default record returned for missing/empty input. -/
def defaultIngredient : RecipeIngredient :=
  { ingredient_name := "Unknown ingredient", quantity := none, unit := none,
    kind := Category.other, is_optional := false, sort_order := 0 }

/-- Steps 2/3 of `parseIngredient`: search a string for a unit token, and
when found normalize it and strip its first literal occurrence from the
string to obtain the name.  Returns `(unit, name)`; the `unit || undefined`
coercion drops an empty normalized unit. -/
def unitAndName (rest : Str) : Option String × Str :=
  match firstUnitMatch rest with
  | some m =>
    let n := normalizeUnit (String.mk m)
    (if n = "" then none else some n, jsTrim (replaceFirst rest m))
  | none => (none, rest)

/-- Steps 4-6 of `parseIngredient`: fall back to the sentinel name,
classify, apply the `quantity || undefined` coercion and assemble the
record.  `t` is the trimmed original string (used for the optionality
check). -/
def assembleIngredient (t : Str) (q : Option JSNum) (un : Option String × Str) :
    RecipeIngredient :=
  let finalName :=
    if (jsTrim un.2).isEmpty then "Unknown ingredient" else String.mk (jsTrim un.2)
  { ingredient_name := finalName
    quantity :=
      match q with
      | none => none
      | some v => if jsTruthy v then some v else none
    unit := un.1
    kind := classifyIngredient finalName
    is_optional := isOptional (String.mk t)
    sort_order := 0 }

/-- Model of `IngredientParser.parseIngredient`. -/
def parseIngredient (input : JSInput) : RecipeIngredient :=
  match input with
  | JSInput.nonString => defaultIngredient
  | JSInput.str s =>
    if s = "" then defaultIngredient
    else
      let t := jsTrim s.data
      if t.isEmpty then defaultIngredient
      else
        match matchQuantity t with
        | some (grp, rest0) =>
          assembleIngredient t (computeQuantity (jsTrim grp)) (unitAndName (jsTrim rest0))
        | none => assembleIngredient t none (unitAndName t)

/-! ## InstructionParser -/

/-- The time-unit alternation `(minute|minutes|min|hour|hours|hr|hrs)`, in
order; nothing follows it in the patterns, so the first prefix-matching
alternative wins. -/
def timeUnitAlts : List String :=
  ["minute", "minutes", "min", "hour", "hours", "hr", "hrs"]

/-- Ordered case-insensitive alternation matched as a prefix, returning the
consumed length. -/
def altCiPrefixLen (alts : List String) (s : Str) : Option Nat :=
  alts.findSome? (fun a => if ciIsPrefix a.data s then some a.data.length else none)

/-- A regex match: start index, total length of the matched text, and the
first two capture groups. -/
structure RegexHit where
  index : Nat
  len : Nat
  g1 : Str
  g2 : Str
deriving DecidableEq, Repr

/-- Match of `TIME_PATTERNS[0]`, `(\d+)\s*(?:to|-)\s*(\d+)\s*(unit)/i`, at
the start of `s`: capture group 2 is the second number (the unit is group
3, which the code never reads).  Whitespace runs are maximal; no viable
backtracking exists (a shortened `\d+`/`\s*` run always faces a
non-matching character). -/
def attemptRange (s : Str) : Option (Nat × Str × Str) :=
  let d1 := s.takeWhile isDigitB
  if d1.isEmpty then none
  else
    let r1 := s.dropWhile isDigitB
    let w1 := r1.takeWhile jsIsSpace
    let r2 := r1.dropWhile jsIsSpace
    let sep : Option Nat :=
      if ciIsPrefix "to".data r2 then some 2
      else if ciIsPrefix "-".data r2 then some 1 else none
    match sep with
    | none => none
    | some k =>
      let r3 := r2.drop k
      let w2 := r3.takeWhile jsIsSpace
      let r4 := r3.dropWhile jsIsSpace
      let d2 := r4.takeWhile isDigitB
      if d2.isEmpty then none
      else
        let r5 := r4.dropWhile isDigitB
        let w3 := r5.takeWhile jsIsSpace
        let r6 := r5.dropWhile jsIsSpace
        match altCiPrefixLen timeUnitAlts r6 with
        | none => none
        | some ul =>
          some (d1.length + w1.length + k + w2.length + d2.length + w3.length + ul,
            d1, d2)

/-- Match of `TIME_PATTERNS[1]`, `(\d+)\s*(unit)/i`, at the start of `s`;
capture group 2 is the unit token (in original case). -/
def attemptSingle (s : Str) : Option (Nat × Str × Str) :=
  let d1 := s.takeWhile isDigitB
  if d1.isEmpty then none
  else
    let r1 := s.dropWhile isDigitB
    let w1 := r1.takeWhile jsIsSpace
    let r2 := r1.dropWhile jsIsSpace
    match altCiPrefixLen timeUnitAlts r2 with
    | none => none
    | some ul => some (d1.length + w1.length + ul, d1, r2.take ul)

/-- Match of `TIME_PATTERNS[2]`,
`(?:for|about|approximately)\s*(\d+)\s*(unit)/i`, at the start of `s`; the
three cue words are mutually non-prefix, so ordered choice is exact. -/
def attemptCtx (s : Str) : Option (Nat × Str × Str) :=
  match altCiPrefixLen ["for", "about", "approximately"] s with
  | none => none
  | some k =>
    let r1 := s.drop k
    let w1 := r1.takeWhile jsIsSpace
    let r2 := r1.dropWhile jsIsSpace
    let d1 := r2.takeWhile isDigitB
    if d1.isEmpty then none
    else
      let r3 := r2.dropWhile isDigitB
      let w2 := r3.takeWhile jsIsSpace
      let r4 := r3.dropWhile jsIsSpace
      match altCiPrefixLen timeUnitAlts r4 with
      | none => none
      | some ul => some (k + w1.length + d1.length + w2.length + ul, d1, r4.take ul)

/-- The `exec` loop with the `g` flag: scan left to right, consume each
match, continue after it.  (All matches here are nonempty; the `len - 1`
formulation and the fuel — always at least the list length, each step
consuming at least one character — only serve structural termination.) -/
def scanAllAux (att : Str → Option (Nat × Str × Str)) :
    Nat → Nat → Str → List RegexHit
  | 0, _, _ => []
  | _ + 1, _, [] => []
  | fuel + 1, i, c :: r =>
    match att (c :: r) with
    | some (len, g1, g2) =>
      ⟨i, len, g1, g2⟩ :: scanAllAux att fuel (i + len) (List.drop (len - 1) r)
    | none => scanAllAux att fuel (i + 1) r

/-- Scan of a whole string (fuel initialized to its length). -/
def scanAll (att : Str → Option (Nat × Str × Str)) (l : Str) : List RegexHit :=
  scanAllAux att l.length 0 l

/-- A collected time mention: the raw number, its minute conversion, and
the lowercased ±20-character context window. -/
structure TimeEntry where
  time : Nat
  minutes : Nat
  context : Str
deriving DecidableEq, Repr

/-- Conversion of one regex hit into a `timeMatches` entry: `parseInt` on
group 1, the `unit.includes('hour') ? time * 60 : time` conversion on the
lowercased group 2, and the context slice
`instruction.slice(max(0, index - 20), min(length, index + len + 20))`. -/
def toTimeEntry (instr : Str) (h : RegexHit) : TimeEntry :=
  let time := jsParseIntNat h.g1
  let unit := jsToLower h.g2
  let minutes := if containsSub "hour".data unit then time * 60 else time
  let stop := min instr.length (h.index + h.len + 20)
  let context := jsToLower ((instr.take stop).drop (h.index - 20))
  ⟨time, minutes, context⟩

/-- All time mentions of an instruction, pattern family by pattern family
(the outer loop over `TIME_PATTERNS`). -/
def timeMatches (instr : Str) : List TimeEntry :=
  (scanAll attemptRange instr ++ scanAll attemptSingle instr ++
    scanAll attemptCtx instr).map (toTimeEntry instr)

/-- The prep-indicating context words. -/
def prepCueWords : List String :=
  ["prep", "chop", "slice", "dice", "mix", "stir", "prepare", "cut",
   "mince", "marinate"]

/-- The cook-indicating context words. -/
def cookCueWords : List String :=
  ["bake", "cook", "fry", "grill", "roast", "simmer", "boil", "steam",
   "broil"]

/-- Whether a context window contains a prep cue. -/
def prepCue (ctx : Str) : Bool :=
  prepCueWords.any (fun w => containsSub w.data ctx)

/-- Whether a context window contains a cook cue. -/
def cookCue (ctx : Str) : Bool :=
  cookCueWords.any (fun w => containsSub w.data ctx)

/-- JavaScript falsiness of a `number | undefined` variable (`undefined`
and `0` are falsy). -/
def optFalsy : Option Nat → Bool
  | none => true
  | some 0 => true
  | some _ => false

/-- One iteration of the prep/cook assignment loop over `timeMatches`:
prep cues assign (and overwrite) `prepTime`, otherwise cook cues assign
(and overwrite) `cookTime`, otherwise `cookTime` is defaulted when both
variables are still falsy. -/
def assignStep (st : Option Nat × Option Nat) (e : TimeEntry) :
    Option Nat × Option Nat :=
  if prepCue e.context then (some e.minutes, st.2)
  else if cookCue e.context then (st.1, some e.minutes)
  else if optFalsy st.1 && optFalsy st.2 then (st.1, some e.minutes)
  else st

/-- Character class `[fF]`. -/
def isFChar (c : Char) : Bool := c = 'f' ∨ c = 'F'

/-- Character class `[cC]`. -/
def isCChar (c : Char) : Bool := c = 'c' ∨ c = 'C'

/-- Match of `(\d+)\s*°?\s*X` (X the given character class) at the start of
`s`: digits, maximal whitespace, optional degree sign, maximal whitespace,
one class character.  Returns group 1 and the matched length. -/
def attemptTempFC (fc : Char → Bool) (s : Str) : Option (Str × Nat) :=
  let d1 := s.takeWhile isDigitB
  if d1.isEmpty then none
  else
    let r1 := s.dropWhile isDigitB
    let w1 := r1.takeWhile jsIsSpace
    let r2 := r1.dropWhile jsIsSpace
    let dg := if r2.head? = some '°' then 1 else 0
    let r3 := r2.drop dg
    let w2 := r3.takeWhile jsIsSpace
    let r4 := r3.dropWhile jsIsSpace
    match r4.head? with
    | some c => if fc c then some (d1, d1.length + w1.length + dg + w2.length + 1) else none
    | none => none

/-- Match of `(\d+)\s*degrees?\s*X/i` at the start of `s`. -/
def attemptTempDeg (fc : Char → Bool) (s : Str) : Option (Str × Nat) :=
  let d1 := s.takeWhile isDigitB
  if d1.isEmpty then none
  else
    let r1 := s.dropWhile isDigitB
    let w1 := r1.takeWhile jsIsSpace
    let r2 := r1.dropWhile jsIsSpace
    if ciIsPrefix "degree".data r2 then
      let r3 := r2.drop 6
      let sl := if r3.head? = some 's' ∨ r3.head? = some 'S' then 1 else 0
      let r4 := r3.drop sl
      let w2 := r4.takeWhile jsIsSpace
      let r5 := r4.dropWhile jsIsSpace
      match r5.head? with
      | some c =>
        if fc c then some (d1, d1.length + w1.length + 6 + sl + w2.length + 1) else none
      | none => none
    else none

/-- First match of an unanchored pattern (`String.prototype.match` without
consuming): leftmost position wins; returns group 1 and the matched text. -/
def scanFirst (att : Str → Option (Str × Nat)) (l : Str) : Option (Str × Str) :=
  match att l with
  | some (g1, len) => some (g1, l.take len)
  | none =>
    match l with
    | [] => none
    | _ :: r => scanFirst att r

/-- Temperature of one hit: `parseInt` on group 1 and, when the matched
text contains a Celsius marker, `Math.round(t * 9/5 + 32)`.  The rounding
is computed exactly: for natural `t`, `round(9t/5 + 32) = (18t + 325) / 10`
in integer division (no tie is possible, the fraction has denominator 5). -/
def tempValue (hit : Str × Str) : Nat :=
  let t := jsParseIntNat hit.1
  if containsSub "c".data (jsToLower hit.2) then (18 * t + 325) / 10 else t

/-- The `TEMPERATURE_PATTERNS` loop: four patterns in order, first pattern
with a match wins. -/
def extractTemperature (instr : Str) : Option Nat :=
  match scanFirst (attemptTempFC isFChar) instr with
  | some hit => some (tempValue hit)
  | none =>
    match scanFirst (attemptTempFC isCChar) instr with
    | some hit => some (tempValue hit)
    | none =>
      match scanFirst (attemptTempDeg isFChar) instr with
      | some hit => some (tempValue hit)
      | none =>
        match scanFirst (attemptTempDeg isCChar) instr with
        | some hit => some (tempValue hit)
        | none => none

/-- The structured result of `parseInstruction` (`RecipeInstruction`). -/
structure RecipeInstruction where
  step_number : Nat
  instruction : String
  prep_time : Option Nat
  cook_time : Option Nat
  temperature : Option Nat
deriving DecidableEq, Repr

/-- Model of `InstructionParser.parseInstruction`. -/
def parseInstruction (instructionStr : String) (stepNumber : Nat) :
    RecipeInstruction :=
  let instruction := jsTrim instructionStr.data
  let pc := (timeMatches instruction).foldl assignStep (none, none)
  { step_number := stepNumber
    instruction := String.mk instruction
    prep_time := pc.1
    cook_time := pc.2
    temperature := extractTemperature instruction }

/-! ## RecipeAnalyzer: dietary tags -/

/-- The first filter of `extractDietaryTags`: keep string entries whose
trimmed form is nonempty. -/
def validIngredients (ingredients : List String) : List String :=
  ingredients.filter (fun ing => !(jsTrim ing.data).isEmpty)

/-- `join(' ')` on JavaScript arrays of strings. -/
def joinSp : List Str → Str
  | [] => []
  | [x] => x
  | x :: xs => x ++ ' ' :: joinSp xs

/-- The lowercased concatenated ingredient text
(`validIngredients.filter(i => i && typeof i === 'string').join(' ').toLowerCase()`). -/
def ingredientText (valid : List String) : Str :=
  jsToLower (joinSp ((valid.filter (fun i => i != "")).map String.data))

/-- The meat keywords of `hasMeatIngredients`: main proteins plus the
non-plant-based alternative proteins. -/
def meatKeywords : List String :=
  proteinMainKeywords ++
    proteinSourceKeywords.filter (fun ing => !plantBasedProteins.contains ing)

/-- Model of `RecipeAnalyzer.hasMeatIngredients`. -/
def hasMeatIngredients (text : Str) : Bool :=
  meatKeywords.any (fun k => containsSub k.data text)

/-- Model of `RecipeAnalyzer.hasDairyIngredients`. -/
def hasDairyIngredients (text : Str) : Bool :=
  (dairyKeywords ++ ["egg", "eggs"]).any (fun k => containsSub k.data text)

/-- Model of `RecipeAnalyzer.hasGlutenIngredients`. -/
def hasGlutenIngredients (text : Str) : Bool :=
  (grainKeywords.filter (fun ing => glutenContaining.contains ing)).any
    (fun k => containsSub k.data text)

/-- Model of `RecipeAnalyzer.extractDietaryTags`. -/
def extractDietaryTags (ingredients : List String) : List String :=
  let valid := validIngredients ingredients
  if valid.length = 0 then []
  else
    let text := ingredientText valid
    let hasMeat := hasMeatIngredients text
    let hasDairy := hasDairyIngredients text
    let hasGluten := hasGlutenIngredients text
    (if !hasMeat then ["vegetarian"] else []) ++
    (if !hasMeat && !hasDairy then ["vegan"] else []) ++
    (if !hasGluten then ["gluten-free"] else []) ++
    (if !hasDairy then ["dairy-free"] else [])

/-! ## DataValidator -/

/-- The fields of a raw recipe record that `validateRecipe` inspects;
`none` stands for an absent (or non-string / non-array) field. -/
structure RawRecipe where
  title : Option String
  ingredients : Option (List String)
  directions : Option (List String)
deriving DecidableEq, Repr

/-- The result of `validateRecipe`. -/
structure ValidationResult where
  isValid : Bool
  errors : List String
deriving DecidableEq, Repr

/-- Rule 1: `!recipe.title || recipe.title.trim().length === 0`. -/
def titleMissing (r : RawRecipe) : Bool :=
  match r.title with
  | none => true
  | some t => t == "" || (jsTrim t.data).isEmpty

/-- Rule 2: ingredients absent, not an array, or empty. -/
def ingredientsMissing (r : RawRecipe) : Bool :=
  match r.ingredients with
  | none => true
  | some l => l.isEmpty

/-- Rule 3: directions absent, not an array, or empty. -/
def directionsMissing (r : RawRecipe) : Bool :=
  match r.directions with
  | none => true
  | some l => l.isEmpty

/-- Rule 4: `recipe.title && recipe.title.length > 100`. -/
def titleTooLong (r : RawRecipe) : Bool :=
  match r.title with
  | none => false
  | some t => t != "" && t.length > 100

/-- Model of `DataValidator.validateRecipe`: every rule is evaluated, the
violated ones push their message, and validity is `errors.length === 0`. -/
def validateRecipe (r : RawRecipe) : ValidationResult :=
  let errors :=
    (if titleMissing r then ["Recipe title is required"] else []) ++
    (if ingredientsMissing r then ["At least one ingredient is required"] else []) ++
    (if directionsMissing r then ["At least one instruction is required"] else []) ++
    (if titleTooLong r then ["Recipe title is too long (max 100 characters)"] else [])
  { isValid := errors.length == 0, errors := errors }

/-! ## General lemmas about the string primitives -/

theorem containsSub_iff {n h : Str} : containsSub n h = true ↔ n <:+: h := by
  rw [List.infix_iff_prefix_suffix]
  simp only [containsSub, List.any_eq_true, List.mem_tails,
    List.isPrefixOf_iff_prefix]
  exact ⟨fun ⟨t, ht, hp⟩ => ⟨t, hp, ht⟩, fun ⟨t, hp, ht⟩ => ⟨t, ht, hp⟩⟩

theorem forall_mem_dropWhile_iff {α : Type} {p : α → Bool} {l : List α} :
    (∀ x ∈ l.dropWhile p, p x = true) ↔ ∀ x ∈ l, p x = true := by
  constructor
  · intro h x hx
    rw [← List.takeWhile_append_dropWhile p l] at hx
    rcases List.mem_append.mp hx with h1 | h2
    · exact List.mem_takeWhile_imp h1
    · exact h x h2
  · intro h x hx
    exact h x ((List.dropWhile_sublist p).mem hx)

theorem jsTrim_eq_nil_iff {l : Str} :
    jsTrim l = [] ↔ ∀ c ∈ l, jsIsSpace c = true := by
  unfold jsTrim
  rw [List.reverse_eq_nil_iff]
  constructor
  · intro h c hc
    have h2 := List.dropWhile_eq_nil_iff.mp h
    have := forall_mem_dropWhile_iff.mp (fun x hx => h2 x (List.mem_reverse.mpr hx))
    exact this c hc
  · intro h
    apply List.dropWhile_eq_nil_iff.mpr
    intro x hx
    exact h x ((List.dropWhile_sublist jsIsSpace).mem (List.mem_reverse.mp hx))

theorem charOfNat_toNat {n : Nat} (h : n < 55296) : (Char.ofNat n).toNat = n := by
  have hv : n.isValidChar := Or.inl h
  simp [Char.ofNat, hv, Char.ofNatAux, Char.toNat, UInt32.toNat,
    BitVec.toNat_ofNatLt]

theorem lowerChar_cases {c d : Char} (h : lowerChar c = d) :
    (65 ≤ c.toNat ∧ c.toNat ≤ 90 ∧ d.toNat = c.toNat + 32) ∨ c = d := by
  unfold lowerChar at h
  split at h
  · rename_i hr
    left
    refine ⟨hr.1, hr.2, ?_⟩
    rw [← h, charOfNat_toNat (by omega)]
  · right; exact h

theorem jsIsSpace_bounds {c : Char} (h1 : 65 ≤ c.toNat) (h2 : c.toNat ≤ 122) :
    jsIsSpace c = false := by
  simp only [jsIsSpace, decide_eq_false_iff_not]
  omega

theorem jsIsSpace_lowerChar (c : Char) : jsIsSpace (lowerChar c) = jsIsSpace c := by
  rcases @lowerChar_cases c (lowerChar c) rfl with ⟨h1, h2, h3⟩ | h
  · rw [jsIsSpace_bounds (by omega) (by omega)]
    rw [jsIsSpace_bounds (by omega) (by omega)]
  · rw [← h]

/-! ## Claims about `extractDietaryTags` on empty input (C1) -/

/-- C1, counterexample: `extractDietaryTags` applied to the empty
ingredient list returns the empty tag list, not the four dietary tags —
the code returns early with no tags when no valid ingredient remains. -/
theorem extractDietaryTags_empty_counterexample :
    extractDietaryTags [] = [] ∧ "vegetarian" ∉ extractDietaryTags [] := by
  decide

/-- C1, amended: for every ingredient list with no valid (nonempty after
trimming) entry — in particular the empty list — `extractDietaryTags`
returns the empty tag list. -/
theorem extractDietaryTags_empty_no_tags (L : List String)
    (h : validIngredients L = []) : extractDietaryTags L = [] := by
  simp [extractDietaryTags, h]

/-- Witness for `extractDietaryTags_empty_no_tags` at a concrete input. -/
theorem extractDietaryTags_empty_no_tags_witness :
    validIngredients ["", "   "] = [] ∧ extractDietaryTags ["", "   "] = [] :=
  ⟨by decide, extractDietaryTags_empty_no_tags ["", "   "] (by decide)⟩

/-! ## Claim about `parseIngredient "500g ground beef"` (C2) -/

/-- C2, evaluation at the failing input: `"500g ground beef"` has no
whitespace between number and unit, so no quantity pattern matches
(each requires `(\d+)\s+…`) and no unit token occurs with word boundaries;
the record keeps the whole string as the name with quantity and unit
absent (category is `protein_main` via the `beef` keyword), not
name `"ground beef"`, quantity `500`, unit `"gram"`. -/
theorem parseIngredient_500g_ground_beef_result :
    parseIngredient (JSInput.str "500g ground beef") =
      { ingredient_name := "500g ground beef", quantity := none, unit := none,
        kind := Category.protein_main, is_optional := false, sort_order := 0 } := by
  decide

/-! ## Claim about hour conversion in `parseInstruction` (C4) -/

/-- C4, evaluation at the failing input: in
`"simmer for 1 to 2 hrs"` the range pattern's mention yields `1` minute
(the unit check reads capture group 2, which for ranges is the second
number) and the single-time pattern's mention of `2 hrs` yields `2`
minutes (`'hrs'.includes('hour')` is false), so the hour values are never
multiplied by 60 and the final cook time is `2`, not a minute value. -/
theorem parseInstruction_hour_range_result :
    parseInstruction "simmer for 1 to 2 hrs" 1 =
      { step_number := 1, instruction := "simmer for 1 to 2 hrs",
        prep_time := none, cook_time := some 2, temperature := none } ∧
    (timeMatches (jsTrim "simmer for 1 to 2 hrs".data)).map TimeEntry.minutes =
      [1, 2] := by
  constructor
  · decide
  · decide

/-! ## Claim about `validateRecipe` (C7) -/

/-- C7: `validateRecipe` evaluates every rule: `isValid` holds exactly when
the error list is empty, and a record missing both a non-blank title and a
non-empty ingredients list collects (at least) the two distinct messages,
one per violated rule. -/
theorem validateRecipe_collects_all_errors (r : RawRecipe) :
    ((validateRecipe r).isValid = true ↔ (validateRecipe r).errors = []) ∧
    (titleMissing r = true → ingredientsMissing r = true →
      "Recipe title is required" ∈ (validateRecipe r).errors ∧
      "At least one ingredient is required" ∈ (validateRecipe r).errors ∧
      ("Recipe title is required" : String) ≠ "At least one ingredient is required") := by
  cases h1 : titleMissing r <;> cases h2 : ingredientsMissing r <;>
    cases h3 : directionsMissing r <;> cases h4 : titleTooLong r <;>
      simp [validateRecipe, h1, h2, h3, h4]

/-- Witness for `validateRecipe_collects_all_errors` at the fully-absent
record. -/
theorem validateRecipe_collects_all_errors_witness :
    "Recipe title is required" ∈ (validateRecipe ⟨none, none, none⟩).errors ∧
    "At least one ingredient is required" ∈ (validateRecipe ⟨none, none, none⟩).errors ∧
    ("Recipe title is required" : String) ≠ "At least one ingredient is required" :=
  (validateRecipe_collects_all_errors ⟨none, none, none⟩).2 rfl rfl

/-! ## Claim about safe defaults on malformed input (C8) -/

/-- C8: the parsers never fail on malformed input: a non-string argument
and every empty or whitespace-only string yield the fully-default
ingredient record (sentinel name, quantity/unit absent, category `other`,
not optional, sort order 0), and an empty or whitespace-only instruction
text yields the default instruction result (no prep time, no cook time, no
temperature). -/
theorem parser_default_on_malformed (s : String) (n : Nat) :
    parseIngredient JSInput.nonString = defaultIngredient ∧
    (jsTrim s.data = [] →
      parseIngredient (JSInput.str s) = defaultIngredient ∧
      parseInstruction s n =
        { step_number := n, instruction := "", prep_time := none,
          cook_time := none, temperature := none }) := by
  refine ⟨rfl, fun h => ⟨?_, ?_⟩⟩
  · by_cases hs : s = ""
    · simp [parseIngredient, hs]
    · simp [parseIngredient, hs, h]
  · simp [parseInstruction, h, timeMatches, scanAll, scanAllAux,
      extractTemperature, scanFirst, attemptTempFC, attemptTempDeg,
      isDigitB, String.mk]

/-- Witness for `parser_default_on_malformed` at the whitespace-only
string. -/
theorem parser_default_on_malformed_witness :
    parseIngredient JSInput.nonString = defaultIngredient ∧
    parseIngredient (JSInput.str "   ") = defaultIngredient ∧
    parseInstruction "   " 7 =
      { step_number := 7, instruction := "", prep_time := none,
        cook_time := none, temperature := none } :=
  ⟨(parser_default_on_malformed "   " 7).1,
   ((parser_default_on_malformed "   " 7).2 (by decide)).1,
   ((parser_default_on_malformed "   " 7).2 (by decide)).2⟩

/-! ## Claim about the quantity invariant (C10) -/

/-- Helper: the assembled record's quantity survives the
`quantity || undefined` coercion only when truthy. -/
theorem assembleIngredient_quantity_truthy (t : Str) (q : Option JSNum)
    (un : Option String × Str) (v : JSNum)
    (hv : (assembleIngredient t q un).quantity = some v) : jsTruthy v = true := by
  cases q with
  | none => simp [assembleIngredient] at hv
  | some w =>
    simp only [assembleIngredient] at hv
    split at hv
    · cases hv
      assumption
    · cases hv

/-- C10: whenever `parseIngredient` returns a present quantity, it is a
well-defined nonzero number — never `NaN` and never zero (an input whose
head quantity token evaluates to `0`, such as `"0 cups sugar"`, or to an
unparseable value, yields an absent quantity instead, via the
`quantity || undefined` coercion). -/
theorem parseIngredient_quantity_nonzero :
    (∀ (input : JSInput) (v : JSNum),
        (parseIngredient input).quantity = some v →
        v ≠ JSNum.nan ∧ ∀ q, v = JSNum.val q → q.num ≠ 0) ∧
    (parseIngredient (JSInput.str "0 cups sugar")).quantity = none := by
  constructor
  · intro input v hv
    have htr : jsTruthy v = true := by
      cases input with
      | nonString => simp [parseIngredient, defaultIngredient] at hv
      | str s =>
        simp only [parseIngredient] at hv
        split at hv
        · simp [defaultIngredient] at hv
        · split at hv
          · simp [defaultIngredient] at hv
          · split at hv
            · exact assembleIngredient_quantity_truthy _ _ _ v hv
            · exact assembleIngredient_quantity_truthy _ _ _ v hv
    constructor
    · rintro rfl
      simp [jsTruthy] at htr
    · rintro q rfl
      simpa [jsTruthy] using htr
  · decide

/-- Witness for `parseIngredient_quantity_nonzero` at a concrete input
with a present quantity. -/
theorem parseIngredient_quantity_nonzero_witness :
    (parseIngredient (JSInput.str "2 cups flour")).quantity =
      some (JSNum.val (qOfNat 2)) ∧
    (JSNum.val (qOfNat 2) ≠ JSNum.nan ∧
      ∀ q, JSNum.val (qOfNat 2) = JSNum.val q → q.num ≠ 0) :=
  ⟨by decide,
   parseIngredient_quantity_nonzero.1 (JSInput.str "2 cups flour") _ (by decide)⟩

/-! ## Claim about dietary-tag monotonicity (C9) -/

theorem jsTrim_ne_nil {l : Str} {c : Char} (hc : c ∈ l)
    (hs : jsIsSpace c = false) : jsTrim l ≠ [] := by
  intro h
  have := jsTrim_eq_nil_iff.mp h c hc
  rw [hs] at this
  exact Bool.false_ne_true this

theorem infix_of_mem_joinSp {y : Str} {l : List Str} (h : y ∈ l) : y <:+: joinSp l := by
  induction l with
  | nil => cases h
  | cons x xs ih =>
    rcases List.mem_cons.mp h with rfl | hm
    · cases xs with
      | nil => exact List.infix_refl y
      | cons z zs =>
        have : joinSp (y :: z :: zs) = y ++ ' ' :: joinSp (z :: zs) := rfl
        rw [this]
        exact (List.prefix_append y (' ' :: joinSp (z :: zs))).isInfix
    · cases xs with
      | nil => cases hm
      | cons z zs =>
        have he : joinSp (x :: z :: zs) = x ++ ' ' :: joinSp (z :: zs) := rfl
        rw [he]
        refine (ih hm).trans ?_
        exact ((List.suffix_cons ' ' (joinSp (z :: zs))).trans
          (List.suffix_append x (' ' :: joinSp (z :: zs)))).isInfix

/-- C9: appending an ingredient that contains a meat keyword to a
previously meat-free ingredient list yields a tag set without `vegetarian`
and without `vegan` — the tags can only be removed by the addition, never
introduced. -/
theorem extractDietaryTags_meat_monotone (L : List String) (m k : String)
    (_hL : hasMeatIngredients (ingredientText (validIngredients L)) = false)
    (hk : k ∈ meatKeywords)
    (hm : containsSub k.data (jsToLower m.data) = true) :
    "vegetarian" ∉ extractDietaryTags (L ++ [m]) ∧
    "vegan" ∉ extractDietaryTags (L ++ [m]) := by
  -- every meat keyword is nonempty and contains a non-space character
  have hall : meatKeywords.all
      (fun w => !w.data.isEmpty && w.data.any (fun c => !jsIsSpace c)) = true := by
    decide
  have hkfacts := List.all_eq_true.mp hall k hk
  rw [Bool.and_eq_true] at hkfacts
  obtain ⟨c₀, hc₀, hcs₀⟩ := List.any_eq_true.mp hkfacts.2
  rw [Bool.not_eq_true'] at hcs₀
  -- hence m contains a non-space character
  obtain ⟨p, q, hpq⟩ := containsSub_iff.mp hm
  have hc₀m : c₀ ∈ jsToLower m.data := by
    rw [← hpq]
    simp [hc₀]
  obtain ⟨c, hcm, hlc⟩ := List.mem_map.mp hc₀m
  have hcns : jsIsSpace c = false := by
    rw [← jsIsSpace_lowerChar c, hlc]
    exact hcs₀
  -- m survives the validity filter
  have hmkeep : (!(jsTrim m.data).isEmpty) = true := by
    cases h : jsTrim m.data with
    | nil => exact absurd h (jsTrim_ne_nil hcm hcns)
    | cons a l => rfl
  have hval : validIngredients (L ++ [m]) = validIngredients L ++ [m] := by
    simp only [validIngredients, List.filter_append]
    simp [hmkeep]
  -- meat is detected in the combined ingredient text
  have hm_ne : m ≠ "" := by
    intro h
    subst h
    cases hcm
  have htext :
      hasMeatIngredients (ingredientText (validIngredients L ++ [m])) = true := by
    apply List.any_eq_true.mpr
    refine ⟨k, hk, ?_⟩
    apply containsSub_iff.mpr
    have hmem : m.data ∈
        (((validIngredients L ++ [m]).filter (fun i => i != "")).map String.data) := by
      apply List.mem_map.mpr
      refine ⟨m, ?_, rfl⟩
      apply List.mem_filter.mpr
      refine ⟨List.mem_append.mpr (Or.inr (List.mem_singleton.mpr rfl)), ?_⟩
      simp [hm_ne]
    have h1 : k.data <:+: jsToLower m.data := containsSub_iff.mp hm
    have h2 : jsToLower m.data <:+: ingredientText (validIngredients L ++ [m]) :=
      (infix_of_mem_joinSp hmem).map lowerChar
    exact h1.trans h2
  have hnotmem : ∀ (g d : Bool) (s : String), s = "vegetarian" ∨ s = "vegan" →
      s ∉ ((if !(true : Bool) then ["vegetarian"] else []) ++
        ((if !(true : Bool) && !d then ["vegan"] else []) ++
        ((if !g then ["gluten-free"] else []) ++
        (if !d then ["dairy-free"] else [])))) := by
    intro g d s hs
    rcases hs with rfl | rfl <;> cases g <;> cases d <;> decide
  constructor
  · simp only [extractDietaryTags, hval, htext]
    split
    · simp
    · exact hnotmem _ _ "vegetarian" (Or.inl rfl)
  · simp only [extractDietaryTags, hval, htext]
    split
    · simp
    · exact hnotmem _ _ "vegan" (Or.inr rfl)

/-- Witness for `extractDietaryTags_meat_monotone` at a concrete meat-free
list and meat ingredient. -/
theorem extractDietaryTags_meat_monotone_witness :
    hasMeatIngredients (ingredientText (validIngredients ["flour"])) = false ∧
    "beef" ∈ meatKeywords ∧
    containsSub "beef".data (jsToLower "beef".data) = true ∧
    ("vegetarian" ∉ extractDietaryTags (["flour"] ++ ["beef"]) ∧
      "vegan" ∉ extractDietaryTags (["flour"] ++ ["beef"])) :=
  ⟨by decide, by decide, by decide,
   extractDietaryTags_meat_monotone ["flour"] "beef" "beef" (by decide) (by decide)
     (by decide)⟩

/-! ## Claims about prep/cook assignment order (C3) -/

theorem assignStep_fst {st : Option Nat × Option Nat} {e : TimeEntry}
    (he : prepCue e.context = false) : (assignStep st e).1 = st.1 := by
  simp only [assignStep, he, Bool.false_eq_true, if_false]
  split
  · rfl
  · split
    · rfl
    · rfl

theorem foldl_assign_fst (l : List TimeEntry) (st : Option Nat × Option Nat) :
    (l.foldl assignStep st).1 =
      (l.filter (fun e => prepCue e.context)).foldl
        (fun _ e => some e.minutes) st.1 := by
  induction l generalizing st with
  | nil => rfl
  | cons e l ih =>
    rw [List.foldl_cons, List.filter_cons]
    cases he : prepCue e.context with
    | false =>
      simp only [Bool.false_eq_true, if_false]
      rw [ih, assignStep_fst he]
    | true =>
      simp only [if_true]
      rw [ih, List.foldl_cons]
      have : (assignStep st e).1 = some e.minutes := by simp [assignStep, he]
      rw [this]

theorem foldl_last_wins (l : List TimeEntry) (p : Option Nat) :
    l.foldl (fun _ e => some e.minutes) p =
      (match l.getLast? with
        | some e => some e.minutes
        | none => p) := by
  induction l generalizing p with
  | nil => rfl
  | cons e l ih =>
    cases l with
    | nil => rfl
    | cons f l' =>
      rw [List.getLast?_cons_cons, List.foldl_cons]
      exact ih (some e.minutes)

/-- C3, counterexample: in
`"chop 5 minutes chop 9 minutes"` the first prep-context mention is `5`
minutes, but `parseInstruction` reports `prepMinutes = 9`: a later
qualifying mention overwrites the already-filled field instead of being
discarded. -/
theorem parseInstruction_first_wins_counterexample :
    ((timeMatches (jsTrim "chop 5 minutes chop 9 minutes".data)).filter
        (fun e => prepCue e.context)).head?.map TimeEntry.minutes = some 5 ∧
    (parseInstruction "chop 5 minutes chop 9 minutes" 1).prep_time = some 9 ∧
    (parseInstruction "chop 5 minutes chop 9 minutes" 1).prep_time ≠ some 5 := by
  refine ⟨by decide, by decide, by decide⟩

/-- C3, amended: for every instruction string and step number the
assignment loop is last-match-wins, not first-match-wins: `prepMinutes`
equals the minutes of the *last* time mention whose context contains a
prep cue (absent when there is none), and whenever the final mention has a
cook-cue (and no prep-cue) context, `cookMinutes` equals that final
mention's minutes — each later qualifying mention overwrites the field. -/
theorem parseInstruction_last_match_wins (s : String) (n : Nat) :
    ((parseInstruction s n).prep_time =
      (match ((timeMatches (jsTrim s.data)).filter
          (fun e => prepCue e.context)).getLast? with
        | some e => some e.minutes
        | none => none)) ∧
    (∀ (pre : List TimeEntry) (e : TimeEntry),
      timeMatches (jsTrim s.data) = pre ++ [e] →
      prepCue e.context = false → cookCue e.context = true →
      (parseInstruction s n).cook_time = some e.minutes) := by
  constructor
  · show ((timeMatches (jsTrim s.data)).foldl assignStep (none, none)).1 = _
    rw [foldl_assign_fst]
    exact foldl_last_wins _ _
  · intro pre e hsplit hp hc
    show ((timeMatches (jsTrim s.data)).foldl assignStep (none, none)).2 = _
    rw [hsplit, List.foldl_append]
    simp [assignStep, hp, hc]

/-- Witness for `parseInstruction_last_match_wins` at a concrete
instruction whose single mention has a cook-cue context. -/
theorem parseInstruction_last_match_wins_witness :
    (parseInstruction "simmer 8 minutes" 1).cook_time = some 8 :=
  (parseInstruction_last_match_wins "simmer 8 minutes" 1).2 []
    ⟨8, 8, "simmer 8 minutes".data⟩ (by decide) (by decide) (by decide)

/-! ## Claims about the exact-classification order (C5) -/

theorem jsTrim_jsToLower (l : Str) : jsTrim (jsToLower l) = jsToLower (jsTrim l) := by
  have hcomp : (jsIsSpace ∘ lowerChar) = jsIsSpace := funext jsIsSpace_lowerChar
  unfold jsTrim jsToLower
  rw [List.dropWhile_map, hcomp, ← List.map_reverse, List.dropWhile_map, hcomp,
    ← List.map_reverse]

/-- C5, counterexample: `"onion milk"` contains the vegetable keyword
`onion` and the dairy keyword `milk` and no protein keyword, yet the
exact-substring tier classifies it as `dairy`, not `vegetable` — the
object-literal iteration order places `dairy` third, before `vegetable`. -/
theorem classifyIngredient_onion_milk_counterexample :
    containsSub "onion".data (jsTrim (jsToLower "onion milk".data)) = true ∧
    containsSub "milk".data (jsTrim (jsToLower "onion milk".data)) = true ∧
    "onion" ∈ vegetableKeywords ∧ "milk" ∈ dairyKeywords ∧
    classifyIngredient "onion milk" = Category.dairy ∧
    Category.dairy ≠ Category.vegetable := by
  refine ⟨by decide, by decide, by decide, by decide, by decide, by decide⟩

/-- C5, amended: the exact-substring tier iterates the categories in the
object-literal order `protein_main, protein_source, dairy, vegetable,
grain, fat, spice, fruit, nuts_seeds, condiments`; in particular, for every
name matching no protein keyword but some dairy keyword (even when a
vegetable keyword also matches), the result is `dairy`. -/
theorem classifyIngredient_dairy_before_vegetable (s : String)
    (hpm : proteinMainKeywords.any
        (fun k => containsSub k.data (jsTrim (jsToLower s.data))) = false)
    (hps : proteinSourceKeywords.any
        (fun k => containsSub k.data (jsTrim (jsToLower s.data))) = false)
    (hda : dairyKeywords.any
        (fun k => containsSub k.data (jsTrim (jsToLower s.data))) = true) :
    classifyIngredient s = Category.dairy := by
  have hne : ¬(jsTrim s.data).isEmpty = true := by
    obtain ⟨k, hk, hksub⟩ := List.any_eq_true.mp hda
    have hkne : k.data ≠ [] := by
      have : dairyKeywords.all (fun w => !w.data.isEmpty) = true := by decide
      have h2 := List.all_eq_true.mp this k hk
      cases hd : k.data with
      | nil => rw [hd] at h2; cases h2
      | cons a l => exact fun h => List.noConfusion h
    have hinf := containsSub_iff.mp hksub
    have hlen := hinf.sublist.length_le
    intro hempty
    rw [List.isEmpty_iff] at hempty
    rw [jsTrim_jsToLower, hempty] at hlen
    simp at hlen
    exact hkne (List.eq_nil_of_length_eq_zero (Nat.le_zero.mp hlen ▸ rfl))
  have hexact :
      exactClassification (jsTrim (jsToLower s.data)) = some Category.dairy := by
    simp only [exactClassification, INGREDIENT_CLASSIFICATIONS,
      List.findSome?_cons, hpm, hps, hda]
    simp
  simp only [classifyIngredient]
  rw [if_neg hne, hexact]

/-- Witness for `classifyIngredient_dairy_before_vegetable` at the
concrete name containing both a vegetable and a dairy keyword. -/
theorem classifyIngredient_dairy_before_vegetable_witness :
    classifyIngredient "onion milk" = Category.dairy :=
  classifyIngredient_dairy_before_vegetable "onion milk" (by decide) (by decide)
    (by decide)

/-! ## Claims about spelled-out word quantities (C6) -/

theorem dropWhile_eq_self_of_false {α : Type} {p : α → Bool} {l : List α}
    (h : ∀ c ∈ l, p c = false) : l.dropWhile p = l := by
  cases l with
  | nil => rfl
  | cons a l =>
    rw [List.dropWhile_cons_of_neg]
    simp [h a (List.mem_cons_self a l)]

theorem jsTrim_of_no_space {l : Str} (h : ∀ c ∈ l, jsIsSpace c = false) :
    jsTrim l = l := by
  unfold jsTrim
  rw [dropWhile_eq_self_of_false h,
    dropWhile_eq_self_of_false (fun c hc => h c (List.mem_reverse.mp hc)),
    List.reverse_reverse]

theorem jsParseFloat_letter_head {c : Char} {l : Str}
    (h : (65 ≤ c.toNat ∧ c.toNat ≤ 90) ∨ (97 ≤ c.toNat ∧ c.toNat ≤ 122)) :
    jsParseFloat (c :: l) = JSNum.nan := by
  have hs : jsIsSpace c = false := jsIsSpace_bounds (by omega) (by omega)
  have hd : isDigitB c = false := by
    simp only [isDigitB, decide_eq_false_iff_not]
    omega
  have hm : c ≠ '-' := fun he => by
    rw [he] at h
    have h45 : ('-').toNat = 45 := rfl
    omega
  have hpl : c ≠ '+' := fun he => by
    rw [he] at h
    have h43 : ('+').toNat = 43 := rfl
    omega
  have hdot : c ≠ '.' := fun he => by
    rw [he] at h
    have h46 : ('.').toNat = 46 := rfl
    omega
  unfold jsParseFloat
  rw [List.dropWhile_cons_of_neg (by simp [hs])]
  simp [hm, hpl, hd, hdot, List.takeWhile_cons_of_neg, List.dropWhile_cons_of_neg]

theorem matchQuantity_of_no_digit {t : Str} (h : t.takeWhile isDigitB = []) :
    matchQuantity t = matchWordQ t := by
  have h1 : matchFracQ t = none := by
    simp only [matchFracQ, h]
    split
    · simp
    · rfl
  have h2 : matchMixedQ t = none := by
    simp only [matchMixedQ, h]
    split
    · simp
    · rfl
  have h3 : matchDecQ t = none := by
    simp only [matchDecQ, h]
    split
    · simp
    · rfl
  have h4 : matchIntQ t = none := by
    simp [matchIntQ, h]
  simp [matchQuantity, h1, h2, h3, h4]

/-- C6, amended: whenever the head of the (trimmed) input is a spelled-out
quantity word followed by whitespace and further text — i.e. the word
quantity pattern matches, with `w` the matched token and `rest` the
remainder — `parseIngredient` does use `rest` for the unit search and the
ingredient name, but the returned quantity is absent, not a numeric value:
the matched word goes through `parseFloat`, which yields `NaN`, and the
`quantity || undefined` coercion drops it. -/
theorem parseIngredient_word_quantity_absent (s : String) (w rest : Str)
    (h : matchWordQ (jsTrim s.data) = some (w, rest)) :
    (parseIngredient (JSInput.str s)).quantity = none ∧
    parseIngredient (JSInput.str s) =
      assembleIngredient (jsTrim s.data) (some JSNum.nan)
        (unitAndName (jsTrim rest)) := by
  obtain ⟨word, hword, hfw⟩ := List.exists_of_findSome?_eq_some h
  -- the word's characters are lowercase letters
  have hwordfacts : word.data ≠ [] ∧
      ∀ c ∈ word.data, 97 ≤ c.toNat ∧ c.toNat ≤ 122 := by
    have hall : wordAlts.all (fun v => !v.data.isEmpty &&
        v.data.all (fun c => decide (97 ≤ c.toNat) && decide (c.toNat ≤ 122))) = true := by
      decide
    have h2 := List.all_eq_true.mp hall word hword
    rw [Bool.and_eq_true] at h2
    constructor
    · intro hnil
      rw [hnil] at h2
      cases h2.1
    · intro c hc
      have h3 := List.all_eq_true.mp h2.2 c hc
      rw [Bool.and_eq_true, decide_eq_true_eq, decide_eq_true_eq] at h3
      exact h3
  -- destructure the successful branch of the word matcher
  have hp : ciIsPrefix word.data (jsTrim s.data) = true := by
    by_contra hc
    rw [if_neg hc] at hfw
    cases hfw
  rw [if_pos hp] at hfw
  have hw : w = (jsTrim s.data).take word.data.length ∧
      rest = ((jsTrim s.data).drop word.data.length).dropWhile jsIsSpace := by
    dsimp only at hfw
    split at hfw
    · rw [Option.some.injEq, Prod.mk.injEq] at hfw
      exact ⟨hfw.1.symm, hfw.2.symm⟩
    · cases hfw
  -- the characters of the matched token are letters
  have hmapw : jsToLower w = word.data := by
    have hpref := List.isPrefixOf_iff_prefix.mp hp
    have hlow : jsToLower word.data = word.data :=
      List.map_congr_left (fun c hc => by
        have := hwordfacts.2 c hc
        exact if_neg (by omega)) |>.trans (List.map_id word.data)
    have hlen : word.data.length = (word.data.map lowerChar).length :=
      (List.length_map word.data lowerChar).symm
    calc jsToLower w
        = List.take word.data.length (jsToLower (jsTrim s.data)) := by
          rw [hw.1]
          exact List.map_take lowerChar (jsTrim s.data) word.data.length
      _ = List.take (word.data.map lowerChar).length (jsToLower (jsTrim s.data)) := by
          rw [← hlen]
      _ = word.data.map lowerChar := (List.prefix_iff_eq_take.mp hpref).symm
      _ = word.data := hlow
  have hwchars : ∀ c ∈ w,
      (65 ≤ c.toNat ∧ c.toNat ≤ 90) ∨ (97 ≤ c.toNat ∧ c.toNat ≤ 122) := by
    intro c hc
    have h1 : lowerChar c ∈ jsToLower w := List.mem_map_of_mem lowerChar hc
    rw [hmapw] at h1
    have h2 := hwordfacts.2 _ h1
    rcases @lowerChar_cases c (lowerChar c) rfl with ⟨ha, hb, _⟩ | heq
    · exact Or.inl ⟨ha, hb⟩
    · refine Or.inr ?_
      rw [heq]
      exact h2
  have hwne : w ≠ [] := by
    intro hnil
    rw [hnil] at hmapw
    exact hwordfacts.1 hmapw.symm
  have htne : jsTrim s.data ≠ [] := by
    intro hnil
    exact hwne (by rw [hw.1, hnil, List.take_nil])
  have hdigit : (jsTrim s.data).takeWhile isDigitB = [] := by
    cases htt : jsTrim s.data with
    | nil => rfl
    | cons c r =>
      have hcw : c ∈ w := by
        rw [hw.1, htt]
        cases hn : word.data with
        | nil => exact absurd hn hwordfacts.1
        | cons d ds =>
          rw [List.length_cons, List.take_succ_cons]
          exact List.mem_cons_self c _
      have hnd : ¬isDigitB c = true := by
        simp only [isDigitB, decide_eq_true_eq]
        rcases hwchars c hcw with hh | hh <;> omega
      rw [List.takeWhile_cons_of_neg hnd]
  have hmq : matchQuantity (jsTrim s.data) = some (w, rest) := by
    rw [matchQuantity_of_no_digit hdigit]
    exact h
  have hnospace : ∀ c ∈ w, jsIsSpace c = false := fun c hc => by
    rcases hwchars c hc with hh | hh <;> exact jsIsSpace_bounds (by omega) (by omega)
  have hnotmem : ∀ (ch : Char), ch.toNat < 65 → ¬ch ∈ w := by
    intro ch hch hmem
    rcases hwchars ch hmem with hh | hh <;> omega
  have hnoslash : w.contains '/' = false := by
    simpa using hnotmem '/' (by decide)
  have hnosp : w.contains ' ' = false := by
    simpa using hnotmem ' ' (by decide)
  have hcompute : computeQuantity (jsTrim w) = some JSNum.nan := by
    rw [jsTrim_of_no_space hnospace]
    unfold computeQuantity
    rw [if_neg (by simpa using hnotmem '/' (by decide)),
      if_neg (by simpa using hnotmem ' ' (by decide))]
    cases hwc : w with
    | nil => exact absurd hwc hwne
    | cons c r =>
      have hcr : c ∈ w := by
        rw [hwc]
        exact List.mem_cons_self c r
      rw [jsParseFloat_letter_head (hwchars c hcr)]
  have hs_ne : s ≠ "" := by
    intro hnil
    apply htne
    rw [hnil]
    rfl
  have heq : parseIngredient (JSInput.str s) =
      assembleIngredient (jsTrim s.data) (some JSNum.nan)
        (unitAndName (jsTrim rest)) := by
    simp only [parseIngredient]
    rw [if_neg hs_ne]
    rw [if_neg (by simpa [List.isEmpty_iff] using htne)]
    rw [hmq]
    show assembleIngredient (jsTrim s.data) (computeQuantity (jsTrim w))
        (unitAndName (jsTrim rest)) = _
    rw [hcompute]
  refine ⟨?_, heq⟩
  rw [heq]
  simp [assembleIngredient, jsTruthy]

/-- C6, counterexample: `"half cup milk"` has a spelled-out quantity word
head, and the remainder is indeed used for the unit and the name, but the
returned quantity is absent, not a present numeric value
(`parseFloat("half")` is `NaN`, coerced to absent). -/
theorem parseIngredient_word_quantity_counterexample :
    matchWordQ (jsTrim "half cup milk".data) =
      some ("half".data, "cup milk".data) ∧
    parseIngredient (JSInput.str "half cup milk") =
      { ingredient_name := "milk", quantity := none, unit := some "cup",
        kind := Category.dairy, is_optional := false, sort_order := 0 } := by
  refine ⟨by decide, by decide⟩

/-- Witness for `parseIngredient_word_quantity_absent` at a concrete
word-quantity input. -/
theorem parseIngredient_word_quantity_absent_witness :
    (parseIngredient (JSInput.str "half cup milk")).quantity = none :=
  (parseIngredient_word_quantity_absent "half cup milk" "half".data
    "cup milk".data (by decide)).1
